import Mathlib

/-!
Verification of the discord-action notification builder and delivery client.

The definitions below are a shallow embedding of the JavaScript source
(src/index.js).  JavaScript strings are modelled as Lean strings, with
`s.substring(0, n)` modelled as taking the first `n` characters,
`s.replace(pat, "")` (string pattern, hence first occurrence only) as
`removeFirstStr`, `||` string defaulting as `jsOrS` (the empty string is
falsy), and `parseInt(s, 16)` as `jsParseIntHex` (`none` models NaN).
Optional context values are `Option` fields; a JavaScript number used in a
boolean position is truthy when present and nonzero.  The wall-clock
timestamp taken inside `buildEmbed` is passed in as an explicit `now`
argument.  Property reads on the two lookup object literals consult the
prototype chain in JavaScript; `getStatusStylingJs` and
`getEventMetadataJs` model that full behavior via `JsLookup`, while the
plain `getStatusStyling` and `getEventMetadata` are the finite-map
restrictions that coincide with the source away from Object.prototype
property names.
-/

namespace DiscordAction

/-- A repository sub-structure of the event payload (`payload.repository`). -/
structure Repository where
  full_name : Option String
  html_url : Option String
deriving Repr, DecidableEq

/-- One entry of `payload.commits`. -/
structure CommitInfo where
  message : Option String
deriving Repr, DecidableEq

/-- The `payload.pull_request` sub-structure. -/
structure PullRequestInfo where
  number : Int
  title : String
  html_url : String
deriving Repr, DecidableEq

/-- The `payload.release` sub-structure. -/
structure ReleaseInfo where
  tag_name : String
  name : String
  html_url : String
deriving Repr, DecidableEq

/-- The `payload.issue` sub-structure. -/
structure IssueInfo where
  number : Int
  title : String
  html_url : String
deriving Repr, DecidableEq

/-- The `payload.review` sub-structure. -/
structure ReviewInfo where
  state : Option String
deriving Repr, DecidableEq

/-- The `payload.deployment_status` sub-structure. -/
structure DeploymentStatusInfo where
  state : Option String
deriving Repr, DecidableEq

/-- The loosely typed GitHub event payload: only the sub-structures the
source ever reads are modelled. -/
structure EventPayload where
  repository : Option Repository
  action : Option String
  review : Option ReviewInfo
  ref_type : Option String
  deployment_status : Option DeploymentStatusInfo
  pull_request : Option PullRequestInfo
  commits : Option (List CommitInfo)
  release : Option ReleaseInfo
  issue : Option IssueInfo
deriving Repr, DecidableEq

/-- The GitHub context destructured at the top of `buildEmbed`. -/
structure EventContext where
  eventName : String
  payload : EventPayload
  workflow : Option String
  runNumber : Option Nat
  runId : Option Nat
  actor : Option String
  ref : Option String
  sha : Option String
deriving Repr, DecidableEq

/-- One name/value/inline field of a Discord embed. -/
structure Field where
  name : String
  value : String
  inline : Bool
deriving Repr, DecidableEq

/-- The Discord embed object returned by `buildEmbed`; `color` is `none`
when `parseInt` produced NaN, and `footer_text` models `footer.text`. -/
structure Embed where
  title : String
  description : String
  color : Option Int
  fields : List Field
  timestamp : String
  footer_text : String
deriving Repr, DecidableEq

/-- Event metadata entry: emoji, display title, description, default color. -/
structure EventMeta where
  emoji : String
  title : String
  description : String
  color : Int
deriving Repr, DecidableEq

/-- Status styling entry: color, emoji, label. -/
structure StatusStyle where
  color : Int
  emoji : String
  label : String
deriving Repr, DecidableEq

/-- JavaScript `a || d` for an optional string `a`: the empty string is
falsy, and an absent value defaults as well. -/
def jsOrS : Option String → String → String
  | none, d => d
  | some s, d => if s = "" then d else s

/-- JavaScript truthiness of `x ? f x : d` for an optional string `x`. -/
def jsOptTemplate (o : Option String) (f : String → String) (d : String) : String :=
  match o with
  | none => d
  | some s => if s = "" then d else f s

/-- JavaScript truthiness of an optional number: present and nonzero. -/
def jsTruthyNum : Option Nat → Bool
  | none => false
  | some n => n != 0

/-- JavaScript `s.toLowerCase()` (ASCII range, which covers every string
the source compares against). -/
def jsToLower (s : String) : String := String.mk (s.data.map Char.toLower)

/-- JavaScript `s.substring(0, n)`: the first `n` characters of `s`. -/
def jsSubstring (s : String) (n : Nat) : String := String.mk (s.data.take n)

/-- Remove the first occurrence of `pat` from `s` (JavaScript
`s.replace(pat, "")` with a string pattern replaces only the first
occurrence, wherever it is). -/
def removeFirst (pat : List Char) : List Char → List Char
  | [] => []
  | c :: cs => if pat.isPrefixOf (c :: cs) then (c :: cs).drop pat.length else c :: removeFirst pat cs

/-- String version of `removeFirst`. -/
def removeFirstStr (pat s : String) : String := String.mk (removeFirst pat.data s.data)

/-- JavaScript `array.join(sep)`. -/
def jsJoin (sep : String) : List String → String
  | [] => ""
  | [a] => a
  | a :: b :: rest => a ++ sep ++ jsJoin sep (b :: rest)

/-- Whitespace skipped by JavaScript `parseInt` (ASCII range). -/
def isJsSpace (c : Char) : Bool :=
  c = ' ' || c = '\t' || c = '\n' || c = '\r' || c = '\x0b' || c = '\x0c'

/-- Hexadecimal digit test for `parseInt(s, 16)`. -/
def isHexDigitJs (c : Char) : Bool :=
  c.isDigit || ('a' ≤ c && c ≤ 'f') || ('A' ≤ c && c ≤ 'F')

/-- Value of a hexadecimal digit. -/
def hexDigitVal (c : Char) : Nat :=
  if c.isDigit then c.toNat - '0'.toNat
  else if 'a' ≤ c then c.toNat - 'a'.toNat + 10
  else c.toNat - 'A'.toNat + 10

/-- Value of the longest hexadecimal-digit run after an optional `0x`
prefix; `none` when there is no digit (NaN). -/
def hexDigitsVal (cs : List Char) : Option Nat :=
  let cs := match cs with
    | '0' :: 'x' :: rest => rest
    | '0' :: 'X' :: rest => rest
    | _ => cs
  let ds := cs.takeWhile isHexDigitJs
  if ds.isEmpty then none
  else some (ds.foldl (fun a c => 16 * a + hexDigitVal c) 0)

/-- JavaScript `parseInt(s, 16)`: skip whitespace, optional sign, optional
`0x` prefix, longest hexadecimal-digit run; `none` models NaN. -/
def jsParseIntHex (s : String) : Option Int :=
  let cs := s.data.dropWhile isJsSpace
  match cs with
  | '-' :: rest => (hexDigitsVal rest).map (fun n => -(n : Int))
  | '+' :: rest => (hexDigitsVal rest).map (fun n => (n : Int))
  | _ => (hexDigitsVal cs).map (fun n => (n : Int))

/-- A word character in the sense of the regular-expression class used at
the unrecognized-event branch of `getEventMetadata`. -/
def isWordChar (c : Char) : Bool := c.isAlphanum || c = '_'

/-- Uppercase each word character that starts a word; the boolean carries
whether the previous character was a word character. -/
def capitalizeWordsAux : Bool → List Char → List Char
  | _, [] => []
  | prevW, c :: cs =>
    (if isWordChar c && !prevW then c.toUpper else c) :: capitalizeWordsAux (isWordChar c) cs

/-- The unrecognized-event title: underscores replaced by spaces and each
word capitalized, as in the source chain of `replace` calls. -/
def titleCaseEventName (e : String) : String :=
  String.mk (capitalizeWordsAux false (e.data.map (fun c => if c = '_' then ' ' else c)))

/-- The `success` styling entry, also the fallback for unrecognized
statuses. -/
def successStyle : StatusStyle := ⟨0x28a745, "✅", "Success"⟩

/-- `getStatusStyling` from the source, as a finite map on the lower-cased
status with the `success` default.  This matches the source for every
status whose lower-casing is not an Object.prototype property name; the
full lookup including the prototype chain is `getStatusStylingJs` below,
and `getStatusStylingJs_eq_own` delimits where the two agree. -/
def getStatusStyling (status : String) : StatusStyle :=
  let s := jsToLower status
  if s = "success" then successStyle
  else if s = "failure" then ⟨0xdc3545, "❌", "Failed"⟩
  else if s = "cancelled" then ⟨0x6c757d, "⚠️", "Cancelled"⟩
  else if s = "skipped" then ⟨0xffc107, "⏭️", "Skipped"⟩
  else successStyle

/-- `getEventMetadata` from the source, as a finite map on the event name
with the computed fallback for unrecognized events.  This matches the
source for every event name that is not an Object.prototype property
name; the full lookup including the prototype chain is
`getEventMetadataJs` below, and `getEventMetadataJs_eq_own` delimits
where the two agree. -/
def getEventMetadata (eventName : String) (payload : EventPayload) : EventMeta :=
  if eventName = "push" then ⟨"📤", "Push", "Code pushed to repository", 0x0366d6⟩
  else if eventName = "pull_request" then
    ⟨"🔀", "Pull Request", jsOptTemplate payload.action (fun a => "PR " ++ a) "Pull Request event", 0x6f42c1⟩
  else if eventName = "pull_request_review" then
    ⟨"👀", "PR Review", jsOptTemplate (payload.review.bind ReviewInfo.state) (fun st => "Review " ++ st) "Pull Request reviewed", 0x6f42c1⟩
  else if eventName = "release" then
    ⟨"🚀", "Release", jsOptTemplate payload.action (fun a => "Release " ++ a) "Release event", 0x17a2b8⟩
  else if eventName = "issues" then
    ⟨"🐛", "Issue", jsOptTemplate payload.action (fun a => "Issue " ++ a) "Issue event", 0xfd7e14⟩
  else if eventName = "issue_comment" then ⟨"💬", "Issue Comment", "Comment on issue", 0xfd7e14⟩
  else if eventName = "workflow_dispatch" then ⟨"▶️", "Manual Trigger", "Workflow manually triggered", 0x0366d6⟩
  else if eventName = "schedule" then ⟨"⏰", "Scheduled Run", "Workflow triggered by schedule", 0x0366d6⟩
  else if eventName = "create" then
    ⟨"✨", "Branch/Tag Created", jsOptTemplate payload.ref_type (fun rt => rt ++ " created") "Reference created", 0x28a745⟩
  else if eventName = "delete" then
    ⟨"🗑️", "Branch/Tag Deleted", jsOptTemplate payload.ref_type (fun rt => rt ++ " deleted") "Reference deleted", 0x6c757d⟩
  else if eventName = "deployment" then ⟨"🚢", "Deployment", "Deployment event", 0x17a2b8⟩
  else if eventName = "deployment_status" then
    ⟨"📊", "Deployment Status", jsOptTemplate (payload.deployment_status.bind DeploymentStatusInfo.state) (fun st => "Deployment " ++ st) "Deployment status update", 0x17a2b8⟩
  else if eventName = "workflow_run" then
    ⟨"🔄", "Workflow Run", jsOptTemplate payload.action (fun a => "Workflow " ++ a) "Workflow run event", 0x0366d6⟩
  else ⟨"🔔", titleCaseEventName eventName, "GitHub event triggered", 0x0366d6⟩

/-- Result of a JavaScript property read on a plain object literal: an own
entry of the literal, a truthy member inherited from Object.prototype (a
function such as the object constructor, or the dunder-proto accessor,
which yields Object.prototype itself), or undefined when the key is on
neither. -/
inductive JsLookup (α : Type) where
  | own : α → JsLookup α
  | inherited : JsLookup α
  | undef : JsLookup α
deriving Repr, DecidableEq

/-- The own property names of Object.prototype; on a plain object literal
each of them reads back a truthy inherited member rather than undefined. -/
def objectProtoKeys : List String :=
  ["constructor", "hasOwnProperty", "isPrototypeOf", "propertyIsEnumerable",
   "toLocaleString", "toString", "valueOf", "__proto__",
   "__defineGetter__", "__defineSetter__", "__lookupGetter__", "__lookupSetter__"]

/-- The raw lookup `styling[status.toLowerCase()]` in `getStatusStyling`,
prototype chain included: an own entry for the four literal keys, a truthy
inherited member for an Object.prototype name, undefined otherwise. -/
def stylingLookup (status : String) : JsLookup StatusStyle :=
  let s := jsToLower status
  if s = "success" then JsLookup.own successStyle
  else if s = "failure" then JsLookup.own ⟨0xdc3545, "❌", "Failed"⟩
  else if s = "cancelled" then JsLookup.own ⟨0x6c757d, "⚠️", "Cancelled"⟩
  else if s = "skipped" then JsLookup.own ⟨0xffc107, "⏭️", "Skipped"⟩
  else if s ∈ objectProtoKeys then JsLookup.inherited
  else JsLookup.undef

/-- The full `styling[status.toLowerCase()] || styling.success` of the
source: the fallback applies only to the falsy (undefined) lookup result,
so an inherited Object.prototype member is returned as is. -/
def getStatusStylingJs (status : String) : JsLookup StatusStyle :=
  match stylingLookup status with
  | JsLookup.undef => JsLookup.own successStyle
  | r => r

/-- The event names that are own keys of the metadata literal in
`getEventMetadata`. -/
def eventKeys : List String :=
  ["push", "pull_request", "pull_request_review", "release", "issues",
   "issue_comment", "workflow_dispatch", "schedule", "create", "delete",
   "deployment", "deployment_status", "workflow_run"]

/-- The raw lookup `metadata[eventName]` in `getEventMetadata`, prototype
chain included; the own entries are exactly the non-fallback branches of
`getEventMetadata`. -/
def eventMetadataLookup (eventName : String) (payload : EventPayload) : JsLookup EventMeta :=
  if eventName ∈ eventKeys then JsLookup.own (getEventMetadata eventName payload)
  else if eventName ∈ objectProtoKeys then JsLookup.inherited
  else JsLookup.undef

/-- The full `metadata[eventName] || fallback` of the source: the computed
fallback entry applies only to the undefined lookup result, so an
inherited Object.prototype member is returned as is. -/
def getEventMetadataJs (eventName : String) (payload : EventPayload) : JsLookup EventMeta :=
  match eventMetadataLookup eventName payload with
  | JsLookup.undef =>
    JsLookup.own ⟨"🔔", titleCaseEventName eventName, "GitHub event triggered", 0x0366d6⟩
  | r => r

/-- `repository?.html_url || ""` from the head of `buildEmbed`. -/
def repoUrlOf (p : EventPayload) : String := jsOrS (p.repository.bind Repository.html_url) ""

/-- `repository?.full_name || "Unknown Repository"`. -/
def repoNameOf (p : EventPayload) : String := jsOrS (p.repository.bind Repository.full_name) "Unknown Repository"

/-- `workflow || "GitHub Actions"`. -/
def workflowNameOf (ctx : EventContext) : String := jsOrS ctx.workflow "GitHub Actions"

/-- `actor || "Unknown"`. -/
def actorNameOf (ctx : EventContext) : String := jsOrS ctx.actor "Unknown"

/-- `ref || "Unknown"`. -/
def refNameOf (ctx : EventContext) : String := jsOrS ctx.ref "Unknown"

/-- `sha || "Unknown"`. -/
def commitShaOf (ctx : EventContext) : String := jsOrS ctx.sha "Unknown"

/-- Color resolution of `buildEmbed`: custom, then status, then event. -/
def colorOf (eventName : String) (payload : EventPayload) (jobStatus customColor : String) : Option Int :=
  if customColor ≠ "" then jsParseIntHex customColor
  else if jsToLower jobStatus ≠ "success" then some (getStatusStyling jobStatus).color
  else some (getEventMetadata eventName payload).color

/-- Title assembly of `buildEmbed`, before truncation. -/
def rawTitle (eventName : String) (payload : EventPayload) (jobStatus customTitle : String) : String :=
  if customTitle ≠ "" then customTitle
  else
    let meta := getEventMetadata eventName payload
    let st := getStatusStyling jobStatus
    if jsToLower jobStatus ≠ "success" then
      st.emoji ++ " " ++ meta.emoji ++ " " ++ meta.title ++ " " ++ st.label
    else meta.emoji ++ " " ++ meta.title

/-- Description assembly of `buildEmbed`, before truncation. -/
def rawDescription (eventName : String) (payload : EventPayload) (jobStatus customDescription workflowName : String) : String :=
  if customDescription ≠ "" then customDescription
  else
    let meta := getEventMetadata eventName payload
    let st := getStatusStyling jobStatus
    if jsToLower jobStatus ≠ "success" then
      "**" ++ workflowName ++ "** workflow " ++ jsToLower st.label ++ " • " ++ meta.description
    else "**" ++ workflowName ++ "** • " ++ meta.description

/-- The Repository field: linked when the repository URL is nonempty. -/
def repoField (ctx : EventContext) : Field :=
  if repoUrlOf ctx.payload ≠ "" then
    ⟨"📦 Repository", "[" ++ repoNameOf ctx.payload ++ "](" ++ repoUrlOf ctx.payload ++ ")", true⟩
  else ⟨"📦 Repository", repoNameOf ctx.payload, true⟩

/-- The Event field. -/
def eventField (ctx : EventContext) : Field := ⟨"🔀 Event", ctx.eventName, true⟩

/-- The Actor field. -/
def actorField (ctx : EventContext) : Field := ⟨"👤 Actor", actorNameOf ctx, true⟩

/-- The Ref field: first occurrence of the branch prefix removed, then
first occurrence of the tag prefix removed. -/
def refField (ctx : EventContext) : Field :=
  ⟨"🌿 Ref", removeFirstStr "refs/tags/" (removeFirstStr "refs/heads/" (refNameOf ctx)), true⟩

/-- `#` followed by the run number or `N/A` when it is falsy. -/
def jsNumOrNA : Option Nat → String
  | none => "N/A"
  | some n => if n = 0 then "N/A" else toString n

/-- The Run Number field. -/
def runNumberField (ctx : EventContext) : Field :=
  ⟨"🔢 Run Number", "#" ++ jsNumOrNA ctx.runNumber, true⟩

/-- The Commit field list: linked when the repository URL is known, plain
when only the sha is known, absent when the sha is the `Unknown` default. -/
def commitFields (ctx : EventContext) : List Field :=
  if commitShaOf ctx ≠ "Unknown" ∧ repoUrlOf ctx.payload ≠ "" then
    [⟨"📝 Commit", "[" ++ jsSubstring (commitShaOf ctx) 7 ++ "](" ++ repoUrlOf ctx.payload ++ "/commit/" ++ commitShaOf ctx ++ ")", true⟩]
  else if commitShaOf ctx ≠ "Unknown" then
    [⟨"📝 Commit", jsSubstring (commitShaOf ctx) 7, true⟩]
  else []

/-- The Pull Request field list. -/
def prFields (ctx : EventContext) : List Field :=
  if ctx.eventName = "pull_request" then
    match ctx.payload.pull_request with
    | some pr => [⟨"🔗 Pull Request", "[#" ++ toString pr.number ++ " - " ++ pr.title ++ "](" ++ pr.html_url ++ ")", false⟩]
    | none => []
  else []

/-- The first line of a commit message (`message?.split(newline)[0]`),
with the falsy cases (absent message, empty first line) defaulted to
`No message`. -/
def commitMsgFirstLine (c : CommitInfo) : String :=
  match c.message with
  | none => "No message"
  | some s =>
    let l := String.mk (s.data.takeWhile (fun ch => ch ≠ '\n'))
    if l = "" then "No message" else l

/-- One bulleted commit line: the first message line truncated to 100
characters, after the bullet. -/
def commitLineOf (c : CommitInfo) : String :=
  "• " ++ jsSubstring (commitMsgFirstLine c) 100

/-- The joined value of the Recent Commits field: first three commits. -/
def commitMessagesOf (cs : List CommitInfo) : String :=
  jsJoin "\n" ((cs.take 3).map commitLineOf)

/-- The Recent Commits field list for push events with commits. -/
def pushFields (ctx : EventContext) : List Field :=
  if ctx.eventName = "push" then
    match ctx.payload.commits with
    | some cs =>
      if cs.length > 0 then
        if commitMessagesOf cs ≠ "" then [⟨"📋 Recent Commits", commitMessagesOf cs, false⟩]
        else []
      else []
    | none => []
  else []

/-- The Release field list. -/
def releaseFields (ctx : EventContext) : List Field :=
  if ctx.eventName = "release" then
    match ctx.payload.release with
    | some r => [⟨"🚀 Release", "[" ++ r.tag_name ++ " - " ++ r.name ++ "](" ++ r.html_url ++ ")", false⟩]
    | none => []
  else []

/-- The Issue field list. -/
def issueFields (ctx : EventContext) : List Field :=
  if ctx.eventName = "issues" then
    match ctx.payload.issue with
    | some i => [⟨"🐛 Issue", "[#" ++ toString i.number ++ " - " ++ i.title ++ "](" ++ i.html_url ++ ")", false⟩]
    | none => []
  else []

/-- All fields pushed under `includeDetails`, in source order. -/
def detailFields (ctx : EventContext) : List Field :=
  [repoField ctx, eventField ctx, actorField ctx, refField ctx, runNumberField ctx]
    ++ commitFields ctx ++ prFields ctx ++ pushFields ctx
    ++ releaseFields ctx ++ issueFields ctx

/-- The final Workflow Run link field, gated only on a truthy run id and a
nonempty repository URL. -/
def runLinkField (ctx : EventContext) : Field :=
  ⟨"🔗 Workflow Run", "[View Details](" ++ repoUrlOf ctx.payload ++ "/actions/runs/" ++ toString (ctx.runId.getD 0) ++ ")", false⟩

/-- The Workflow Run link field list. -/
def runLinkFields (ctx : EventContext) : List Field :=
  if jsTruthyNum ctx.runId ∧ repoUrlOf ctx.payload ≠ "" then [runLinkField ctx] else []

/-- The per-field truncation pass of `buildEmbed`. -/
def validateField (f : Field) : Field :=
  ⟨jsSubstring f.name 256, jsSubstring f.value 1024, f.inline⟩

/-- `buildEmbed` from the source; `now` is the wall-clock instant read at
build time. -/
def buildEmbed (ctx : EventContext) (jobStatus customTitle customDescription customColor : String) (includeDetails : Bool) (now : String) : Embed :=
  { title := jsSubstring (rawTitle ctx.eventName ctx.payload jobStatus customTitle) 256
    description := jsSubstring (rawDescription ctx.eventName ctx.payload jobStatus customDescription (workflowNameOf ctx)) 4096
    color := colorOf ctx.eventName ctx.payload jobStatus customColor
    fields := ((if includeDetails then detailFields ctx else []) ++ runLinkFields ctx).map validateField
    timestamp := now
    footer_text := jsSubstring ("GitHub Actions • " ++ workflowNameOf ctx) 2048 }

/-- Response classification of `sendDiscordMessage`: a 2xx status resolves
with no value, anything else rejects with the error message built from the
status code and the collected response body. -/
def handleWebhookResponse (statusCode : Nat) (responseData : String) : Except String Unit :=
  if 200 ≤ statusCode ∧ statusCode < 300 then Except.ok ()
  else Except.error ("Discord webhook returned status " ++ toString statusCode ++ ": " ++ responseData)

/-- An event payload with every optional sub-structure absent. -/
def emptyPayload : EventPayload := ⟨none, none, none, none, none, none, none, none, none⟩

/-- A payload whose repository carries a name and URL. -/
def repoPayload : EventPayload :=
  { emptyPayload with repository := some ⟨some "me/repo", some "https://gh/me/repo"⟩ }

/-- A push context with full repository data, used by concrete witnesses. -/
def sampleCtx : EventContext :=
  ⟨"push", repoPayload, some "CI", some 12, some 999, some "alice", some "refs/heads/main", some "abcdef1234567890"⟩

/-- A minimal context with no repository and no run id. -/
def bareCtx : EventContext :=
  ⟨"push", emptyPayload, none, none, none, none, none, none⟩

/-- A context whose ref contains the branch prefix in the middle rather
than at the start. -/
def midRefCtx : EventContext :=
  ⟨"push", emptyPayload, none, none, none, none, some "a/refs/heads/b", none⟩

/-- A context whose actor name is 2000 characters long. -/
def longActorCtx : EventContext :=
  ⟨"push", emptyPayload, none, none, none, some (String.mk (List.replicate 2000 'b')), none, none⟩

/-- A context whose sha is the literal string `Unknown`. -/
def unknownShaCtx : EventContext :=
  ⟨"push", repoPayload, none, none, none, none, none, some "Unknown"⟩

/-- A push context with five one-line commit messages. -/
def fiveCommitsCtx : EventContext :=
  ⟨"push", { repoPayload with commits := some [⟨some "one"⟩, ⟨some "two"⟩, ⟨some "three"⟩, ⟨some "four"⟩, ⟨some "five"⟩] },
    none, none, none, none, none, none⟩

/-! Helper lemmas shared by the claim theorems. -/

theorem jsSubstring_length_le (s : String) (n : Nat) : (jsSubstring s n).length ≤ n :=
  List.length_take_le n s.data

theorem jsSubstring_of_le (s : String) (n : Nat) (h : s.length ≤ n) : jsSubstring s n = s := by
  unfold jsSubstring
  rw [List.take_of_length_le h]

theorem validateField_name_short (g : Field) (h : g.name.length ≤ 256) :
    (validateField g).name = g.name := by
  show jsSubstring g.name 256 = g.name
  exact jsSubstring_of_le _ _ h

theorem repoField_name (ctx : EventContext) : (repoField ctx).name = "📦 Repository" := by
  unfold repoField
  split <;> rfl

theorem commitFields_name (ctx : EventContext) (g : Field) (h : g ∈ commitFields ctx) :
    g.name = "📝 Commit" := by
  unfold commitFields at h
  split at h
  · simp only [List.mem_singleton] at h
    subst h
    rfl
  · split at h
    · simp only [List.mem_singleton] at h
      subst h
      rfl
    · simp at h

theorem prFields_name (ctx : EventContext) (g : Field) (h : g ∈ prFields ctx) :
    g.name = "🔗 Pull Request" := by
  unfold prFields at h
  split at h
  · split at h
    · simp only [List.mem_singleton] at h
      subst h
      rfl
    · simp at h
  · simp at h

theorem pushFields_name (ctx : EventContext) (g : Field) (h : g ∈ pushFields ctx) :
    g.name = "📋 Recent Commits" := by
  unfold pushFields at h
  split at h
  · split at h
    · split at h
      · split at h
        · simp only [List.mem_singleton] at h
          subst h
          rfl
        · simp at h
      · simp at h
    · simp at h
  · simp at h

theorem releaseFields_name (ctx : EventContext) (g : Field) (h : g ∈ releaseFields ctx) :
    g.name = "🚀 Release" := by
  unfold releaseFields at h
  split at h
  · split at h
    · simp only [List.mem_singleton] at h
      subst h
      rfl
    · simp at h
  · simp at h

theorem issueFields_name (ctx : EventContext) (g : Field) (h : g ∈ issueFields ctx) :
    g.name = "🐛 Issue" := by
  unfold issueFields at h
  split at h
  · split at h
    · simp only [List.mem_singleton] at h
      subst h
      rfl
    · simp at h
  · simp at h

theorem runLinkField_name (ctx : EventContext) : (runLinkField ctx).name = "🔗 Workflow Run" := rfl

theorem runLinkFields_eq (ctx : EventContext) (g : Field) (h : g ∈ runLinkFields ctx) :
    g = runLinkField ctx := by
  unfold runLinkFields at h
  split at h
  · simpa using h
  · simp at h

theorem mem_detail_name (ctx : EventContext) (g : Field) (h : g ∈ detailFields ctx) :
    g.name = "📦 Repository" ∨ g.name = "🔀 Event" ∨ g.name = "👤 Actor" ∨ g.name = "🌿 Ref" ∨
    g.name = "🔢 Run Number" ∨ (g.name = "📝 Commit" ∧ g ∈ commitFields ctx) ∨
    g.name = "🔗 Pull Request" ∨ (g.name = "📋 Recent Commits" ∧ g ∈ pushFields ctx) ∨
    g.name = "🚀 Release" ∨ g.name = "🐛 Issue" := by
  unfold detailFields at h
  simp only [List.mem_append, List.mem_cons, List.not_mem_nil, or_false] at h
  rcases h with (((((rfl | rfl | rfl | rfl | rfl) | hc) | hp) | hpu) | hr) | hi
  · exact Or.inl (repoField_name ctx)
  · exact Or.inr (Or.inl rfl)
  · exact Or.inr (Or.inr (Or.inl rfl))
  · exact Or.inr (Or.inr (Or.inr (Or.inl rfl)))
  · exact Or.inr (Or.inr (Or.inr (Or.inr (Or.inl rfl))))
  · exact Or.inr (Or.inr (Or.inr (Or.inr (Or.inr (Or.inl ⟨commitFields_name ctx g hc, hc⟩)))))
  · exact Or.inr (Or.inr (Or.inr (Or.inr (Or.inr (Or.inr (Or.inl (prFields_name ctx g hp)))))))
  · exact Or.inr (Or.inr (Or.inr (Or.inr (Or.inr (Or.inr (Or.inr (Or.inl ⟨pushFields_name ctx g hpu, hpu⟩)))))))
  · exact Or.inr (Or.inr (Or.inr (Or.inr (Or.inr (Or.inr (Or.inr (Or.inr (Or.inl (releaseFields_name ctx g hr)))))))))
  · exact Or.inr (Or.inr (Or.inr (Or.inr (Or.inr (Or.inr (Or.inr (Or.inr (Or.inr (issueFields_name ctx g hi)))))))))

theorem commitFields_eq_nil (ctx : EventContext) (h : commitShaOf ctx = "Unknown") :
    commitFields ctx = [] := by
  unfold commitFields
  rw [h]
  simp

theorem pushFields_eq_nil (ctx : EventContext)
    (h : ctx.payload.commits = some [] ∨ ctx.payload.commits = none) :
    pushFields ctx = [] := by
  rcases h with h | h <;> (unfold pushFields; rw [h]; split <;> simp)

/-! The claim theorems. -/

/-- C1: the color of the built notification is resolved in priority order:
a nonempty customColor is parsed as a hexadecimal integer regardless of
status or event kind; otherwise a non-success lower-cased status selects
the status styling color; otherwise the event metadata color is used. -/
theorem c1_color_resolution (ctx : EventContext)
    (jobStatus customTitle customDescription customColor : String)
    (includeDetails : Bool) (now : String) :
    (customColor ≠ "" →
      (buildEmbed ctx jobStatus customTitle customDescription customColor includeDetails now).color =
        jsParseIntHex customColor) ∧
    (customColor = "" → jsToLower jobStatus ≠ "success" →
      (buildEmbed ctx jobStatus customTitle customDescription customColor includeDetails now).color =
        some (getStatusStyling jobStatus).color) ∧
    (customColor = "" → jsToLower jobStatus = "success" →
      (buildEmbed ctx jobStatus customTitle customDescription customColor includeDetails now).color =
        some (getEventMetadata ctx.eventName ctx.payload).color) := by
  refine ⟨fun h => ?_, fun h hs => ?_, fun h hs => ?_⟩
  · simp [buildEmbed, colorOf, h]
  · simp [buildEmbed, colorOf, h, hs]
  · simp [buildEmbed, colorOf, h, hs]

/-- C1 witness: customColor `00ff00` with status `failure` on a push event
yields color `0x00ff00`. -/
theorem c1_color_resolution_witness :
    ("00ff00" : String) ≠ "" ∧
    (buildEmbed sampleCtx "failure" "" "" "00ff00" true "T").color = some 0x00ff00 := by
  have h : ("00ff00" : String) ≠ "" := by decide
  refine ⟨h, ?_⟩
  rw [(c1_color_resolution sampleCtx "failure" "" "" "00ff00" true "T").1 h]
  decide

/-- C4: a nonempty customTitle (resp. customDescription) becomes the output
title (resp. description) verbatim up to the length cap; an empty
customTitle yields the space-separated concatenation of status emoji,
event emoji, event display title and status label for non-success
statuses, and of event emoji and event display title for success. -/
theorem c4_title_description_overrides (ctx : EventContext)
    (jobStatus customTitle customDescription customColor : String)
    (includeDetails : Bool) (now : String) :
    (customTitle ≠ "" →
      (buildEmbed ctx jobStatus customTitle customDescription customColor includeDetails now).title =
        jsSubstring customTitle 256) ∧
    (customDescription ≠ "" →
      (buildEmbed ctx jobStatus customTitle customDescription customColor includeDetails now).description =
        jsSubstring customDescription 4096) ∧
    (customTitle = "" → jsToLower jobStatus ≠ "success" →
      (buildEmbed ctx jobStatus customTitle customDescription customColor includeDetails now).title =
        jsSubstring ((getStatusStyling jobStatus).emoji ++ " " ++
          (getEventMetadata ctx.eventName ctx.payload).emoji ++ " " ++
          (getEventMetadata ctx.eventName ctx.payload).title ++ " " ++
          (getStatusStyling jobStatus).label) 256) ∧
    (customTitle = "" → jsToLower jobStatus = "success" →
      (buildEmbed ctx jobStatus customTitle customDescription customColor includeDetails now).title =
        jsSubstring ((getEventMetadata ctx.eventName ctx.payload).emoji ++ " " ++
          (getEventMetadata ctx.eventName ctx.payload).title) 256) := by
  refine ⟨fun h => ?_, fun h => ?_, fun h hs => ?_, fun h hs => ?_⟩
  · simp [buildEmbed, rawTitle, h]
  · simp [buildEmbed, rawDescription, h]
  · simp [buildEmbed, rawTitle, h, hs]
  · simp [buildEmbed, rawTitle, h, hs]

/-- C4 witness: a short custom title and description pass through
verbatim, and with no custom title a failed push is titled from the
status and event metadata. -/
theorem c4_title_description_overrides_witness :
    (buildEmbed sampleCtx "success" "My Title" "My Desc" "" true "T").title = "My Title" ∧
    (buildEmbed sampleCtx "success" "My Title" "My Desc" "" true "T").description = "My Desc" ∧
    (buildEmbed sampleCtx "failure" "" "" "" true "T").title = "❌ 📤 Push Failed" := by
  refine ⟨?_, ?_, ?_⟩
  · rw [(c4_title_description_overrides sampleCtx "success" "My Title" "My Desc" "" true "T").1 (by decide)]
    decide
  · rw [(c4_title_description_overrides sampleCtx "success" "My Title" "My Desc" "" true "T").2.1 (by decide)]
    decide
  · rw [(c4_title_description_overrides sampleCtx "failure" "" "" "" true "T").2.2.1 rfl (by decide)]
    decide

/-- C7: a delivery attempt that receives an HTTP response succeeds exactly
when the status is in [200, 300); any other status fails with an error
carrying the status code and the response body text. -/
theorem c7_delivery_status (code : Nat) (body : String) :
    (handleWebhookResponse code body = Except.ok () ↔ 200 ≤ code ∧ code < 300) ∧
    (¬(200 ≤ code ∧ code < 300) →
      handleWebhookResponse code body =
        Except.error ("Discord webhook returned status " ++ toString code ++ ": " ++ body)) := by
  unfold handleWebhookResponse
  split <;> simp_all

/-- C7 witness: a 204 response succeeds; a 500 response with body `oops`
fails carrying status 500 and body `oops`. -/
theorem c7_delivery_status_witness :
    handleWebhookResponse 204 "" = Except.ok () ∧
    handleWebhookResponse 500 "oops" = Except.error "Discord webhook returned status 500: oops" := by
  constructor
  · exact (c7_delivery_status 204 "").1.mpr (by decide)
  · rw [(c7_delivery_status 500 "oops").2 (by decide)]
    exact congrArg Except.error (by decide)

theorem getStatusStylingJs_eq_own (s : String) (h : jsToLower s ∉ objectProtoKeys) :
    getStatusStylingJs s = JsLookup.own (getStatusStyling s) := by
  unfold getStatusStylingJs stylingLookup getStatusStyling
  simp only []
  split_ifs with h1 h2 h3 h4 <;> simp_all

theorem getEventMetadataJs_eq_own (e : String) (p : EventPayload) (h : e ∉ objectProtoKeys) :
    getEventMetadataJs e p = JsLookup.own (getEventMetadata e p) := by
  unfold getEventMetadataJs eventMetadataLookup
  by_cases hk : e ∈ eventKeys
  · rw [if_pos hk]
  · rw [if_neg hk, if_neg h]
    show JsLookup.own _ = JsLookup.own _
    congr 1
    simp only [eventKeys, List.mem_cons, List.not_mem_nil, or_false] at hk
    push_neg at hk
    obtain ⟨h1, h2, h3, h4, h5, h6, h7, h8, h9, h10, h11, h12, h13⟩ := hk
    simp [getEventMetadata, h1, h2, h3, h4, h5, h6, h7, h8, h9, h10, h11, h12, h13]

/-- C8 counterexample: the claim says every status string outside the four
recognized ones yields the success triple, but the source lookup consults
the prototype chain: for status `constructor` (and `__proto__`) the read
returns a truthy inherited Object.prototype member, so the success
fallback never fires. -/
theorem c8_status_styling_counterexample :
    jsToLower "constructor" ∉ (["success", "failure", "cancelled", "skipped"] : List String) ∧
    getStatusStylingJs "constructor" = JsLookup.inherited ∧
    getStatusStylingJs "constructor" ≠ JsLookup.own successStyle ∧
    getStatusStylingJs "__proto__" = JsLookup.inherited := by
  refine ⟨by decide, by decide, by decide, by decide⟩

/-- C8 amended: the styling lookup maps the four recognized statuses,
compared case-insensitively, to their own literal color/emoji/label
triples; every other status string whose lower-casing is not an
Object.prototype property name yields the success triple; a status
lower-casing to an Object.prototype property name yields the truthy
inherited prototype member instead. -/
theorem c8_status_styling_amended (s : String) :
    (jsToLower s = "success" → getStatusStylingJs s = JsLookup.own ⟨0x28a745, "✅", "Success"⟩) ∧
    (jsToLower s = "failure" → getStatusStylingJs s = JsLookup.own ⟨0xdc3545, "❌", "Failed"⟩) ∧
    (jsToLower s = "cancelled" → getStatusStylingJs s = JsLookup.own ⟨0x6c757d, "⚠️", "Cancelled"⟩) ∧
    (jsToLower s = "skipped" → getStatusStylingJs s = JsLookup.own ⟨0xffc107, "⏭️", "Skipped"⟩) ∧
    (jsToLower s ∉ (["success", "failure", "cancelled", "skipped"] : List String) →
      jsToLower s ∉ objectProtoKeys →
      getStatusStylingJs s = JsLookup.own successStyle) ∧
    (jsToLower s ∉ (["success", "failure", "cancelled", "skipped"] : List String) →
      jsToLower s ∈ objectProtoKeys →
      getStatusStylingJs s = JsLookup.inherited) := by
  refine ⟨fun h => ?_, fun h => ?_, fun h => ?_, fun h => ?_, fun h hp => ?_, fun h hp => ?_⟩ <;>
    (unfold getStatusStylingJs stylingLookup; simp_all [successStyle])

/-- C8 amended witness: mixed-case recognized statuses yield their own
triples, an ordinary unrecognized status yields the success triple, and a
status lower-casing to the constructor key yields the inherited prototype
member. -/
theorem c8_status_styling_amended_witness :
    getStatusStylingJs "FAILURE" = JsLookup.own ⟨0xdc3545, "❌", "Failed"⟩ ∧
    getStatusStylingJs "Cancelled" = JsLookup.own ⟨0x6c757d, "⚠️", "Cancelled"⟩ ∧
    getStatusStylingJs "sKipped" = JsLookup.own ⟨0xffc107, "⏭️", "Skipped"⟩ ∧
    getStatusStylingJs "SUCCESS" = JsLookup.own ⟨0x28a745, "✅", "Success"⟩ ∧
    getStatusStylingJs "timed_out" = JsLookup.own successStyle ∧
    getStatusStylingJs "CONSTRUCTOR" = JsLookup.inherited := by
  refine ⟨?_, ?_, ?_, ?_, ?_, ?_⟩
  · exact (c8_status_styling_amended "FAILURE").2.1 (by decide)
  · exact (c8_status_styling_amended "Cancelled").2.2.1 (by decide)
  · exact (c8_status_styling_amended "sKipped").2.2.2.1 (by decide)
  · exact (c8_status_styling_amended "SUCCESS").1 (by decide)
  · exact (c8_status_styling_amended "timed_out").2.2.2.2.1 (by decide) (by decide)
  · exact (c8_status_styling_amended "CONSTRUCTOR").2.2.2.2.2 (by decide) (by decide)

/-- C9: the builder is deterministic in its inputs: two builds of the same
context, status and overrides agree on title, description, color, fields
and footer text, and the timestamp is exactly the supplied build instant. -/
theorem c9_builder_deterministic (ctx : EventContext)
    (jobStatus customTitle customDescription customColor : String)
    (includeDetails : Bool) (now₁ now₂ : String) :
    (buildEmbed ctx jobStatus customTitle customDescription customColor includeDetails now₁).title =
      (buildEmbed ctx jobStatus customTitle customDescription customColor includeDetails now₂).title ∧
    (buildEmbed ctx jobStatus customTitle customDescription customColor includeDetails now₁).description =
      (buildEmbed ctx jobStatus customTitle customDescription customColor includeDetails now₂).description ∧
    (buildEmbed ctx jobStatus customTitle customDescription customColor includeDetails now₁).color =
      (buildEmbed ctx jobStatus customTitle customDescription customColor includeDetails now₂).color ∧
    (buildEmbed ctx jobStatus customTitle customDescription customColor includeDetails now₁).fields =
      (buildEmbed ctx jobStatus customTitle customDescription customColor includeDetails now₂).fields ∧
    (buildEmbed ctx jobStatus customTitle customDescription customColor includeDetails now₁).footer_text =
      (buildEmbed ctx jobStatus customTitle customDescription customColor includeDetails now₂).footer_text ∧
    (buildEmbed ctx jobStatus customTitle customDescription customColor includeDetails now₁).timestamp = now₁ :=
  ⟨rfl, rfl, rfl, rfl, rfl, rfl⟩

theorem replicate_ne_empty (n : Nat) (c : Char) (h : 0 < n) :
    String.mk (List.replicate n c) ≠ "" := by
  intro hc
  have hd : List.replicate n c = ([] : List Char) := congrArg String.data hc
  simp at hd
  omega

theorem detail_map_name_ne_runlink (ctx : EventContext) (g : Field) (hg : g ∈ detailFields ctx) :
    (validateField g).name ≠ "🔗 Workflow Run" := by
  rcases mem_detail_name ctx g hg with h | h | h | h | h | ⟨h, _⟩ | h | ⟨h, _⟩ | h | h <;>
    (rw [validateField_name_short g (by rw [h]; decide), h]; decide)

theorem detail_map_name_ne_commit (ctx : EventContext) (g : Field) (hg : g ∈ detailFields ctx)
    (hsha : commitShaOf ctx = "Unknown") :
    (validateField g).name ≠ "📝 Commit" := by
  rcases mem_detail_name ctx g hg with h | h | h | h | h | ⟨h, hmem⟩ | h | ⟨h, _⟩ | h | h
  · rw [validateField_name_short g (by rw [h]; decide), h]; decide
  · rw [validateField_name_short g (by rw [h]; decide), h]; decide
  · rw [validateField_name_short g (by rw [h]; decide), h]; decide
  · rw [validateField_name_short g (by rw [h]; decide), h]; decide
  · rw [validateField_name_short g (by rw [h]; decide), h]; decide
  · rw [commitFields_eq_nil ctx hsha] at hmem
    simp at hmem
  · rw [validateField_name_short g (by rw [h]; decide), h]; decide
  · rw [validateField_name_short g (by rw [h]; decide), h]; decide
  · rw [validateField_name_short g (by rw [h]; decide), h]; decide
  · rw [validateField_name_short g (by rw [h]; decide), h]; decide

theorem detail_map_name_ne_push (ctx : EventContext) (g : Field) (hg : g ∈ detailFields ctx)
    (hcm : ctx.payload.commits = some [] ∨ ctx.payload.commits = none) :
    (validateField g).name ≠ "📋 Recent Commits" := by
  rcases mem_detail_name ctx g hg with h | h | h | h | h | ⟨h, _⟩ | h | ⟨h, hmem⟩ | h | h
  · rw [validateField_name_short g (by rw [h]; decide), h]; decide
  · rw [validateField_name_short g (by rw [h]; decide), h]; decide
  · rw [validateField_name_short g (by rw [h]; decide), h]; decide
  · rw [validateField_name_short g (by rw [h]; decide), h]; decide
  · rw [validateField_name_short g (by rw [h]; decide), h]; decide
  · rw [validateField_name_short g (by rw [h]; decide), h]; decide
  · rw [validateField_name_short g (by rw [h]; decide), h]; decide
  · rw [pushFields_eq_nil ctx hcm] at hmem
    simp at hmem
  · rw [validateField_name_short g (by rw [h]; decide), h]; decide
  · rw [validateField_name_short g (by rw [h]; decide), h]; decide

/-- C2: the final View Details run-link field (non-inline, linking to
repoUrl/actions/runs/runId) is appended exactly when the run id is truthy
and the repository URL is nonempty, independently of includeDetails; with
includeDetails false this leaves exactly one field when both are present
and zero fields otherwise. -/
theorem c2_run_link_field (ctx : EventContext) (jobStatus t d c : String) (inc : Bool)
    (now : String) :
    ((jsTruthyNum ctx.runId ∧ repoUrlOf ctx.payload ≠ "") →
      (buildEmbed ctx jobStatus t d c inc now).fields.getLast? = some (validateField (runLinkField ctx)) ∧
      (runLinkField ctx).inline = false ∧
      (runLinkField ctx).value =
        "[View Details](" ++ repoUrlOf ctx.payload ++ "/actions/runs/" ++ toString (ctx.runId.getD 0) ++ ")" ∧
      (buildEmbed ctx jobStatus t d c false now).fields.length = 1) ∧
    (¬(jsTruthyNum ctx.runId ∧ repoUrlOf ctx.payload ≠ "") →
      (∀ f ∈ (buildEmbed ctx jobStatus t d c inc now).fields, f.name ≠ "🔗 Workflow Run") ∧
      (buildEmbed ctx jobStatus t d c false now).fields.length = 0) := by
  constructor
  · intro h
    have hrl : runLinkFields ctx = [runLinkField ctx] := by
      unfold runLinkFields
      rw [if_pos h]
    refine ⟨?_, rfl, rfl, ?_⟩
    · show (((if inc then detailFields ctx else []) ++ runLinkFields ctx).map validateField).getLast? = _
      rw [hrl, List.map_append]
      exact List.getLast?_concat _
    · show (((if false then detailFields ctx else []) ++ runLinkFields ctx).map validateField).length = 1
      rw [hrl]
      simp
  · intro h
    have hrl : runLinkFields ctx = [] := by
      unfold runLinkFields
      rw [if_neg h]
    constructor
    · intro f hf
      have hf2 : f ∈ ((if inc then detailFields ctx else []) ++ runLinkFields ctx).map validateField := hf
      rw [hrl, List.append_nil] at hf2
      rcases List.mem_map.mp hf2 with ⟨g, hg, rfl⟩
      cases inc
      · simp at hg
      · exact detail_map_name_ne_runlink ctx g hg
    · show (((if false then detailFields ctx else []) ++ runLinkFields ctx).map validateField).length = 0
      rw [hrl]
      simp

/-- C2 witness: with includeDetails false, a context with run id and
repository URL yields exactly the run-link field, and one without them
yields no fields. -/
theorem c2_run_link_field_witness :
    (buildEmbed sampleCtx "success" "" "" "" false "T").fields.length = 1 ∧
    (buildEmbed sampleCtx "success" "" "" "" true "T").fields.getLast? =
      some ⟨"🔗 Workflow Run", "[View Details](https://gh/me/repo/actions/runs/999)", false⟩ ∧
    (buildEmbed bareCtx "success" "" "" "" false "T").fields.length = 0 := by
  have hpos := (c2_run_link_field sampleCtx "success" "" "" "" true "T").1 (by decide)
  have hneg := (c2_run_link_field bareCtx "success" "" "" "" false "T").2 (by decide)
  refine ⟨((c2_run_link_field sampleCtx "success" "" "" "" false "T").1 (by decide)).2.2.2, ?_, hneg.2⟩
  rw [hpos.1]
  decide

/-- C3: every string field of the built payload respects its length cap
via truncation: title at most 256 characters, description at most 4096,
footer text at most 2048, each field name at most 256 and each field value
at most 1024; title, description and footer are exactly the truncations of
the assembled strings. -/
theorem c3_truncation_caps (ctx : EventContext) (jobStatus t d c : String) (inc : Bool)
    (now : String) :
    (buildEmbed ctx jobStatus t d c inc now).title.length ≤ 256 ∧
    (buildEmbed ctx jobStatus t d c inc now).description.length ≤ 4096 ∧
    (buildEmbed ctx jobStatus t d c inc now).footer_text.length ≤ 2048 ∧
    (∀ f ∈ (buildEmbed ctx jobStatus t d c inc now).fields,
      f.name.length ≤ 256 ∧ f.value.length ≤ 1024) ∧
    (buildEmbed ctx jobStatus t d c inc now).title =
      jsSubstring (rawTitle ctx.eventName ctx.payload jobStatus t) 256 ∧
    (buildEmbed ctx jobStatus t d c inc now).description =
      jsSubstring (rawDescription ctx.eventName ctx.payload jobStatus d (workflowNameOf ctx)) 4096 ∧
    (buildEmbed ctx jobStatus t d c inc now).footer_text =
      jsSubstring ("GitHub Actions • " ++ workflowNameOf ctx) 2048 := by
  refine ⟨jsSubstring_length_le _ _, jsSubstring_length_le _ _, jsSubstring_length_le _ _,
    ?_, rfl, rfl, rfl⟩
  intro f hf
  have hf2 : f ∈ ((if inc then detailFields ctx else []) ++ runLinkFields ctx).map validateField := hf
  rcases List.mem_map.mp hf2 with ⟨g, _, rfl⟩
  exact ⟨jsSubstring_length_le _ _, jsSubstring_length_le _ _⟩

/-- C3 witness: a 300-character title comes out as exactly its first 256
characters, and the field value built from a 2000-character actor name
comes out as exactly its first 1024 characters and satisfies the cap. -/
theorem c3_truncation_caps_witness :
    (buildEmbed longActorCtx "success" (String.mk (List.replicate 300 'a')) "" "" true "T").title =
      String.mk (List.replicate 256 'a') ∧
    validateField (actorField longActorCtx) ∈
      (buildEmbed longActorCtx "success" (String.mk (List.replicate 300 'a')) "" "" true "T").fields ∧
    (validateField (actorField longActorCtx)).value = String.mk (List.replicate 1024 'b') ∧
    (validateField (actorField longActorCtx)).value.length ≤ 1024 := by
  have hmem : validateField (actorField longActorCtx) ∈
      (buildEmbed longActorCtx "success" (String.mk (List.replicate 300 'a')) "" "" true "T").fields := by
    show validateField (actorField longActorCtx) ∈
      ((if true then detailFields longActorCtx else []) ++ runLinkFields longActorCtx).map validateField
    exact List.mem_map_of_mem validateField (by simp [detailFields])
  refine ⟨?_, hmem, ?_, ?_⟩
  · have h := (c3_truncation_caps longActorCtx "success" (String.mk (List.replicate 300 'a')) "" "" true "T").2.2.2.2.1
    rw [h]
    unfold rawTitle
    rw [if_pos (replicate_ne_empty 300 'a' (by omega))]
    unfold jsSubstring
    rw [List.take_replicate]
    rfl
  · show jsSubstring (actorField longActorCtx).value 1024 = _
    have hv : (actorField longActorCtx).value = String.mk (List.replicate 2000 'b') := by
      show actorNameOf longActorCtx = _
      unfold actorNameOf longActorCtx jsOrS
      simp only []
      rw [if_neg (replicate_ne_empty 2000 'b' (by omega))]
    rw [hv]
    unfold jsSubstring
    rw [List.take_replicate]
    rfl
  · exact ((c3_truncation_caps longActorCtx "success" (String.mk (List.replicate 300 'a')) "" "" true "T").2.2.2.1
      (validateField (actorField longActorCtx)) hmem).2

theorem commitLineOf_length (c : CommitInfo) : (commitLineOf c).length ≤ 102 := by
  unfold commitLineOf
  rw [String.length_append]
  have h := jsSubstring_length_le (commitMsgFirstLine c) 100
  have h2 : ("• " : String).length = 2 := rfl
  omega

theorem commitLineOf_pos (c : CommitInfo) : 0 < (commitLineOf c).length := by
  unfold commitLineOf
  rw [String.length_append]
  have h2 : ("• " : String).length = 2 := rfl
  omega

theorem jsJoin_cons_length (sep a : String) (l : List String) :
    a.length ≤ (jsJoin sep (a :: l)).length := by
  cases l with
  | nil => exact le_refl _
  | cons b t =>
    show a.length ≤ (a ++ sep ++ jsJoin sep (b :: t)).length
    rw [String.length_append, String.length_append]
    omega

theorem commitMessagesOf_ne_empty (cs : List CommitInfo) (h : cs ≠ []) :
    commitMessagesOf cs ≠ "" := by
  obtain ⟨c, t, rfl⟩ := List.exists_cons_of_ne_nil h
  intro hc
  have he : commitMessagesOf (c :: t) = jsJoin "\n" (commitLineOf c :: (t.take 2).map commitLineOf) := by
    unfold commitMessagesOf
    rw [List.take_succ_cons, List.map_cons]
  have h1 := jsJoin_cons_length "\n" (commitLineOf c) ((t.take 2).map commitLineOf)
  rw [← he, hc] at h1
  have h2 := commitLineOf_pos c
  have h3 : ("" : String).length = 0 := rfl
  omega

theorem commitMessagesOf_length_le (cs : List CommitInfo) :
    (commitMessagesOf cs).length ≤ 308 := by
  match cs with
  | [] => decide
  | [c1] =>
    have h1 := commitLineOf_length c1
    show (commitLineOf c1).length ≤ 308
    omega
  | [c1, c2] =>
    have h1 := commitLineOf_length c1
    have h2 := commitLineOf_length c2
    show (commitLineOf c1 ++ "\n" ++ jsJoin "\n" [commitLineOf c2]).length ≤ 308
    rw [String.length_append, String.length_append]
    have h3 : (jsJoin "\n" [commitLineOf c2]).length = (commitLineOf c2).length := rfl
    have h4 : ("\n" : String).length = 1 := rfl
    omega
  | c1 :: c2 :: c3 :: rest =>
    have h1 := commitLineOf_length c1
    have h2 := commitLineOf_length c2
    have h3 := commitLineOf_length c3
    show (commitLineOf c1 ++ "\n" ++ (commitLineOf c2 ++ "\n" ++ jsJoin "\n" [commitLineOf c3])).length ≤ 308
    rw [String.length_append, String.length_append, String.length_append, String.length_append]
    have h5 : (jsJoin "\n" [commitLineOf c3]).length = (commitLineOf c3).length := rfl
    have h4 : ("\n" : String).length = 1 := rfl
    omega

/-- C5: for a push event with includeDetails and a nonempty commits list,
the fields contain the non-inline Recent Commits field whose value is the
newline-joined bulleted list of the first message line of each of the
first (at most 3) commits, each truncated to 100 characters, in order;
with an empty or absent commits list no such field appears. -/
theorem c5_push_commits_field (ctx : EventContext) (jobStatus t d c now : String)
    (hev : ctx.eventName = "push") :
    (∀ cs : List CommitInfo, ctx.payload.commits = some cs → cs ≠ [] →
      (⟨"📋 Recent Commits", commitMessagesOf cs, false⟩ : Field) ∈
        (buildEmbed ctx jobStatus t d c true now).fields ∧
      commitMessagesOf cs = jsJoin "\n" ((cs.take 3).map commitLineOf)) ∧
    ((ctx.payload.commits = some [] ∨ ctx.payload.commits = none) →
      ∀ f ∈ (buildEmbed ctx jobStatus t d c true now).fields, f.name ≠ "📋 Recent Commits") := by
  constructor
  · intro cs hcs hne
    have hlen : cs.length > 0 := List.length_pos.mpr hne
    have hmsg : commitMessagesOf cs ≠ "" := commitMessagesOf_ne_empty cs hne
    have hpf : pushFields ctx = [⟨"📋 Recent Commits", commitMessagesOf cs, false⟩] := by
      unfold pushFields
      rw [if_pos hev, hcs]
      show (if cs.length > 0 then
        if commitMessagesOf cs ≠ "" then
          [(⟨"📋 Recent Commits", commitMessagesOf cs, false⟩ : Field)] else [] else []) = _
      rw [if_pos hlen, if_pos hmsg]
    have hval : validateField ⟨"📋 Recent Commits", commitMessagesOf cs, false⟩ =
        (⟨"📋 Recent Commits", commitMessagesOf cs, false⟩ : Field) := by
      show (⟨jsSubstring "📋 Recent Commits" 256, jsSubstring (commitMessagesOf cs) 1024, false⟩ : Field) = _
      rw [jsSubstring_of_le _ _ (by decide),
        jsSubstring_of_le _ _ (le_trans (commitMessagesOf_length_le cs) (by omega))]
    refine ⟨?_, rfl⟩
    show _ ∈ ((if true then detailFields ctx else []) ++ runLinkFields ctx).map validateField
    rw [← hval]
    exact List.mem_map_of_mem validateField (by simp [detailFields, hpf])
  · intro hcm f hf
    have hf2 : f ∈ ((if true then detailFields ctx else []) ++ runLinkFields ctx).map validateField := hf
    rcases List.mem_map.mp hf2 with ⟨g, hg, rfl⟩
    rcases List.mem_append.mp hg with hg1 | hg1
    · have hg2 : g ∈ detailFields ctx := hg1
      exact detail_map_name_ne_push ctx g hg2 hcm
    · rw [runLinkFields_eq ctx g hg1]
      rw [validateField_name_short (runLinkField ctx) (by rw [runLinkField_name]; decide),
        runLinkField_name]
      decide

/-- C5 witness: five one-line commits yield exactly the first three
bulleted lines, in order. -/
theorem c5_push_commits_field_witness :
    (⟨"📋 Recent Commits", "• one\n• two\n• three", false⟩ : Field) ∈
      (buildEmbed fiveCommitsCtx "success" "" "" "" true "T").fields ∧
    commitMessagesOf [⟨some "one"⟩, ⟨some "two"⟩, ⟨some "three"⟩, ⟨some "four"⟩, ⟨some "five"⟩] =
      "• one\n• two\n• three" := by
  have hv : commitMessagesOf [⟨some "one"⟩, ⟨some "two"⟩, ⟨some "three"⟩, ⟨some "four"⟩, ⟨some "five"⟩] =
      "• one\n• two\n• three" := by decide
  have h := ((c5_push_commits_field fiveCommitsCtx "success" "" "" "" "T" rfl).1
    [⟨some "one"⟩, ⟨some "two"⟩, ⟨some "three"⟩, ⟨some "four"⟩, ⟨some "five"⟩] rfl (by decide)).1
  rw [hv] at h
  exact ⟨h, hv⟩

/-- C6 counterexample: the claim says text not forming a leading prefix is
left unchanged, but the source removes the first occurrence anywhere: a
ref of `a/refs/heads/b` is displayed as `a/b`, not unchanged. -/
theorem c6_ref_stripping_counterexample :
    ((buildEmbed midRefCtx "success" "" "" "" true "T").fields.get? 3).map Field.value =
      some "a/b" ∧
    ("a/b" : String) ≠ "a/refs/heads/b" := by
  constructor
  · decide
  · decide

/-- C6 amended: the Ref field value is the ref string (defaulted to
`Unknown` when absent) with the first occurrence of `refs/heads/` removed
and then the first occurrence of `refs/tags/` removed, wherever they
occur, truncated to 1024 characters; in particular `refs/heads/main`
displays as `main` and `refs/tags/v1.0` as `v1.0`. -/
theorem c6_ref_stripping_amended (ctx : EventContext) (jobStatus t d c now : String) :
    ((buildEmbed ctx jobStatus t d c true now).fields.get? 3).map Field.value =
      some (jsSubstring (removeFirstStr "refs/tags/" (removeFirstStr "refs/heads/" (refNameOf ctx))) 1024) ∧
    removeFirstStr "refs/tags/" (removeFirstStr "refs/heads/" "refs/heads/main") = "main" ∧
    removeFirstStr "refs/tags/" (removeFirstStr "refs/heads/" "refs/tags/v1.0") = "v1.0" ∧
    refNameOf { ctx with ref := none } = "Unknown" := by
  refine ⟨rfl, by decide, by decide, rfl⟩

/-- C10: a commit sha equal to the literal string `Unknown` is
indistinguishable from an absent sha: the built payload is identical, and
with includeDetails no Commit field is emitted. -/
theorem c10_unknown_sha (ctx : EventContext) (jobStatus t d c : String) (inc : Bool)
    (now : String) (h : ctx.sha = some "Unknown" ∨ ctx.sha = none) :
    buildEmbed ctx jobStatus t d c inc now =
      buildEmbed { ctx with sha := none } jobStatus t d c inc now ∧
    ∀ f ∈ (buildEmbed ctx jobStatus t d c true now).fields, f.name ≠ "📝 Commit" := by
  have hsha : commitShaOf ctx = "Unknown" := by
    rcases h with h | h <;> (unfold commitShaOf; rw [h]) <;> decide
  constructor
  · obtain ⟨en, p, w, rn, ri, a, r, s⟩ := ctx
    rcases h with h | h <;> (simp only at h; subst h; rfl)
  · intro f hf
    have hf2 : f ∈ ((if true then detailFields ctx else []) ++ runLinkFields ctx).map validateField := hf
    rcases List.mem_map.mp hf2 with ⟨g, hg, rfl⟩
    rcases List.mem_append.mp hg with hg1 | hg1
    · have hg2 : g ∈ detailFields ctx := hg1
      exact detail_map_name_ne_commit ctx g hg2 hsha
    · rw [runLinkFields_eq ctx g hg1]
      rw [validateField_name_short (runLinkField ctx) (by rw [runLinkField_name]; decide),
        runLinkField_name]
      decide

/-- C10 witness: a context whose sha is the string `Unknown` builds the
same payload as the same context with no sha at all, and no Commit field
is emitted. -/
theorem c10_unknown_sha_witness :
    unknownShaCtx.sha = some "Unknown" ∧
    buildEmbed unknownShaCtx "success" "" "" "" true "T" =
      buildEmbed ⟨"push", repoPayload, none, none, none, none, none, none⟩ "success" "" "" "" true "T" ∧
    ∀ f ∈ (buildEmbed unknownShaCtx "success" "" "" "" true "T").fields, f.name ≠ "📝 Commit" := by
  have h := c10_unknown_sha unknownShaCtx "success" "" "" "" true "T" (Or.inl rfl)
  exact ⟨rfl, h.1, h.2⟩

end DiscordAction
